import Mathlib

/-!
Verification of the SpriteCraft editor's mask-editing and segmentation core.

The definitions below are a shallow embedding of the Python source:
* `src/main.py` (`EditableLabel`): mask, working pixmap, bounded undo/redo
  history, brush / line / fill / region-removal operations and the Qt mouse
  event flow that drives them;
* `src/main_tk.py` (`ImageProcessor.remove_background` and the Tk caller):
  the classic-CV background segmentation pipeline.

Pixmaps are modelled as flat row-major lists of RGBA pixels with byte (`Nat`)
channels; the alpha mask (`QImage Format_Alpha8`) as a flat list of bytes.
QPainter operations are modelled at the pixel level following Qt's raster
semantics for an Alpha8 paint device: only the alpha channel of a painted
colour is stored, so painting the opaque black brush (`QColor(0, 0, 0)`,
alpha 255) under the default `SourceOver` writes 255 into covered mask
pixels — despite the source comments reading "Black = transparent" —
and `CompositionMode_DestinationIn` multiplies destination alpha by the
source's alpha (the mask value when the source is an Alpha8 image, the
constant 255 when the source is an alpha-less Grayscale8 image).
-/

set_option maxRecDepth 8000

namespace SpriteCraft

/-- One RGBA pixel, byte channels 0..255. -/
structure RGBA where
  r : Nat
  g : Nat
  b : Nat
  a : Nat
deriving DecidableEq, Repr

/-- A pixmap: flat row-major pixel buffer. -/
abbrev Image := List RGBA

/-- Pixel lookup with a transparent-black default (out-of-range reads). -/
def pixAt (img : Image) (i : Nat) : RGBA := img.getD i ⟨0, 0, 0, 0⟩

/-- The state of `EditableLabel` (src/main.py) relevant to mask editing:
original pixmap `_pixmap`, working pixmap `_working_pixmap`, alpha mask
`_mask`, the history list `_history` with cursor `_history_index` and bound
`_max_history`, brush size, and `_last_pos`.  `w`/`h` are the image
dimensions.  The model assumes an image is loaded (the Python guards
`if not self._pixmap` never fire in an editing session). -/
structure EditorState where
  pixmap : Image
  working : Image
  mask : List Nat
  w : Nat
  h : Nat
  brushSize : Nat
  history : List Image
  historyIndex : Int
  maxHistory : Nat
  lastPos : Option (Int × Int)
deriving DecidableEq, Repr

/-- The truncation step of `_add_to_history` (src/main.py:370-372): if the
cursor is not at the end of the history, the states after it are removed. -/
def truncFuture (s : EditorState) : List Image :=
  if s.historyIndex < (s.history.length : Int) - 1
  then s.history.take (s.historyIndex + 1).toNat
  else s.history

/-- `EditableLabel._add_to_history` (src/main.py:365-381): truncate any redo
branch after the cursor, append the current working pixmap, move the cursor to
the end, and if the length now exceeds `_max_history` pop the oldest entry and
decrement the cursor. -/
def addToHistory (s : EditorState) : EditorState :=
  if (truncFuture s ++ [s.working]).length > s.maxHistory then
    { s with history := (truncFuture s ++ [s.working]).drop 1,
             historyIndex := ((truncFuture s ++ [s.working]).length : Int) - 2 }
  else
    { s with history := truncFuture s ++ [s.working],
             historyIndex := ((truncFuture s ++ [s.working]).length : Int) - 1 }

/-- `EditableLabel._restore_from_history` (src/main.py:399-418): if the cursor
is in range, replace the working pixmap with the stored snapshot.  The mask is
not touched. -/
def restoreFromHistory (s : EditorState) : EditorState :=
  if 0 ≤ s.historyIndex ∧ s.historyIndex < (s.history.length : Int) then
    { s with working := s.history.getD s.historyIndex.toNat [] }
  else s

/-- `EditableLabel.undo` (src/main.py:383-389): returns whether an undo
happened, together with the new state. -/
def undo (s : EditorState) : Bool × EditorState :=
  if s.historyIndex > 0 then
    (true, restoreFromHistory { s with historyIndex := s.historyIndex - 1 })
  else (false, s)

/-- `EditableLabel.redo` (src/main.py:391-397). -/
def redo (s : EditorState) : Bool × EditorState :=
  if s.historyIndex < (s.history.length : Int) - 1 then
    (true, restoreFromHistory { s with historyIndex := s.historyIndex + 1 })
  else (false, s)

/-- Committing a snapshot: the source always sets `_working_pixmap` first and
then calls `_add_to_history` (see `setPixmap` and `_update_working_pixmap`). -/
def commit (p : Image) (s : EditorState) : EditorState :=
  addToHistory { s with working := p }

/-- A whole sequence of commits, oldest first. -/
def commitAll (ps : List Image) (s : EditorState) : EditorState :=
  ps.foldl (fun st p => commit p st) s

/-- Iterated `undo` (keeping only the state). -/
def undoN : Nat → EditorState → EditorState
  | 0, s => s
  | n + 1, s => undoN n (undo s).2

/-- The editor state before any snapshot has been committed: empty history and
cursor `-1`, exactly as initialised in `EditableLabel.__init__` /
`setPixmap` before the first `_add_to_history` call; `_max_history = 20`. -/
def freshState : EditorState :=
  { pixmap := [], working := [], mask := [], w := 0, h := 0, brushSize := 20,
    history := [], historyIndex := -1, maxHistory := 20, lastPos := none }

/-! ### Mask painting and compositing (src/main.py) -/

/-- Painting an opaque shape into the `Format_Alpha8` mask (`_apply_brush`,
`_draw_line`, the `_remove_region` fallback): an Alpha8 paint device stores
only the alpha channel, and `QColor(0, 0, 0)` is opaque (alpha 255), so under
the default `SourceOver` each covered pixel receives
`a_out = a_src + a_dst * (255 - a_src) / 255` with effective source alpha
equal to the shape's per-pixel coverage `cov` (255 in the interior,
fractional only on an anti-aliased boundary, 0 outside).  Covered pixels
therefore become 255 — the source's "Black = transparent" comments
notwithstanding, the brush never clears mask alpha. -/
def paintOpaque (cov : Nat → Nat) (mask : List Nat) : List Nat :=
  (List.range mask.length).map (fun i =>
    min (cov i) 255 + mask.getD i 0 * (255 - min (cov i) 255) / 255)

/-- `CompositionMode_DestinationIn` with a `Format_Grayscale8` source drawn
over the Alpha8 mask (`_remove_region`, src/main.py:800-806): destination
alpha is multiplied by source alpha, but a Grayscale8 image carries no alpha
channel and is fetched as fully opaque, so the source alpha is the constant
255 — the gray values `src` (the flood-fill mask) never enter — and every
mask byte is left unchanged (`m * 255 / 255 = m`). -/
def destInGray8 (_src : Nat → Nat) (mask : List Nat) : List Nat :=
  (List.range mask.length).map (fun i => mask.getD i 0 * 255 / 255)

/-- Coverage of the filled disc `painter.drawEllipse(pos, r, r)`:
255 on pixels within distance `r` of the centre, 0 outside. -/
def discCoverage (w : Nat) (c : Int × Int) (r : Nat) : Nat → Nat := fun i =>
  let x : Int := (i % w : Nat)
  let y : Int := (i / w : Nat)
  if (x - c.1) * (x - c.1) + (y - c.2) * (y - c.2) ≤ (r : Int) * (r : Int)
  then 255 else 0

/-- Whether `(x, y)` lies within distance `r` of the segment from `a` to `b`
(a capsule: a line stroked with a round-capped pen of width `2 * r`). -/
def withinCapsule (a b : Int × Int) (r : Nat) (x y : Int) : Bool :=
  let dx := b.1 - a.1
  let dy := b.2 - a.2
  let ex := x - a.1
  let ey := y - a.2
  let tnum := ex * dx + ey * dy
  let tden := dx * dx + dy * dy
  if tden = 0 ∨ tnum ≤ 0 then decide (ex * ex + ey * ey ≤ (r : Int) * r)
  else if tden ≤ tnum then
    decide ((x - b.1) * (x - b.1) + (y - b.2) * (y - b.2) ≤ (r : Int) * r)
  else decide ((ex * dy - ey * dx) * (ex * dy - ey * dx) ≤ (r : Int) * r * tden)

/-- Coverage of `painter.drawLine(start, end)` with a round-capped pen of
width `self._brush_size * 2` (src/main.py:323-329). -/
def capsuleCoverage (w : Nat) (a b : Int × Int) (r : Nat) : Nat → Nat := fun i =>
  if withinCapsule a b r ((i % w : Nat) : Int) ((i / w : Nat) : Int) then 255 else 0

/-- The compositing rule of `_update_working_pixmap` (src/main.py:345-354): a
fresh copy of the original pixmap has the mask drawn over it with
`CompositionMode_DestinationIn`, so every output pixel keeps its colour
channels and has its alpha multiplied by the mask value. -/
def compositeDestIn (img : Image) (mask : List Nat) : Image :=
  List.zipWith (fun p m => { p with a := p.a * min m 255 / 255 }) img mask

/-- `EditableLabel._update_working_pixmap` (src/main.py:339-363): recomposite
the original pixmap with the current mask into `_working_pixmap`, then call
`_add_to_history` (and update the display). -/
def updateWorkingPixmap (s : EditorState) : EditorState :=
  addToHistory { s with working := compositeDestIn s.pixmap s.mask }

/-- `EditableLabel._apply_brush` (src/main.py:293-311): paint an opaque black
disc of radius `_brush_size` into the Alpha8 mask (storing alpha 255 on
covered pixels), then `_update_working_pixmap`. -/
def applyBrush (pos : Int × Int) (s : EditorState) : EditorState :=
  updateWorkingPixmap
    { s with mask := paintOpaque (discCoverage s.w pos s.brushSize) s.mask }

/-- `EditableLabel._draw_line` (src/main.py:313-337): stroke an opaque black
round-capped line of width `_brush_size * 2` into the Alpha8 mask (storing
alpha 255 on covered pixels), then `_update_working_pixmap`. -/
def drawLine (a b : Int × Int) (s : EditorState) : EditorState :=
  updateWorkingPixmap
    { s with mask := paintOpaque (capsuleCoverage s.w a b s.brushSize) s.mask }

/-- The confirmed branch of `EditableLabel._remove_region`
(src/main.py:791-810): the flood-fill mask, wrapped as a `Format_Grayscale8`
image, is drawn over the alpha mask with `CompositionMode_DestinationIn` (a
no-op on the mask, the grayscale source being fetched as fully opaque), then
`_update_working_pixmap`. -/
def removeRegionConfirmed (regionMask : Nat → Nat) (s : EditorState) : EditorState :=
  updateWorkingPixmap { s with mask := destInGray8 regionMask s.mask }

/-- The fallback branch of `EditableLabel._remove_region`
(src/main.py:820-835): paint an opaque black disc of radius
`_brush_size * 2` into the Alpha8 mask, then `_update_working_pixmap`. -/
def removeRegionFallback (pos : Int × Int) (s : EditorState) : EditorState :=
  updateWorkingPixmap
    { s with mask := paintOpaque (discCoverage s.w pos (2 * s.brushSize)) s.mask }

/-! ### Flood fill (`cv2.floodFill`, used by `_highlight_region` and
`_fill_area` in src/main.py and by the contour step modelled below) -/

/-- Neighbour offsets: 4-connected when `conn8 = false`, 8-connected
otherwise. -/
def neighborOffsets (conn8 : Bool) : List (Int × Int) :=
  if conn8 then
    [(-1, -1), (0, -1), (1, -1), (-1, 0), (1, 0), (-1, 1), (0, 1), (1, 1)]
  else [(-1, 0), (1, 0), (0, -1), (0, 1)]

/-- Breadth-first flood fill on a `w × h` grid over linear pixel indices.
`canStep p q` decides whether the fill may grow from pixel `p` to its
neighbour `q` (for `cv2.floodFill` without `FLOODFILL_FIXED_RANGE` the
comparison is against the adjacent pixel already in the component).  Every
pixel is marked visited when enqueued, so `w * h + 1` fuel always suffices. -/
def bfsAux (w h : Nat) (canStep : Nat → Nat → Bool) (conn8 : Bool) :
    Nat → List Nat → List Bool → List Bool
  | 0, _, vis => vis
  | _ + 1, [], vis => vis
  | fuel + 1, p :: rest, vis =>
    let x : Int := (p % w : Nat)
    let y : Int := (p / w : Nat)
    let ns := (neighborOffsets conn8).filterMap (fun d =>
      let nx := x + d.1
      let ny := y + d.2
      if 0 ≤ nx ∧ nx < (w : Int) ∧ 0 ≤ ny ∧ ny < (h : Int) then
        some (ny.toNat * w + nx.toNat)
      else none)
    let fresh := ns.filter (fun q => !(vis.getD q true) && canStep p q)
    bfsAux w h canStep conn8 fuel (rest ++ fresh)
      (fresh.foldl (fun v q => v.set q true) vis)

/-- The region reached by flood fill from linear index `start`, as a same-size
boolean buffer (the `mask` that `cv2.floodFill` writes, border stripped). -/
def floodFillRegion (w h : Nat) (canStep : Nat → Nat → Bool) (conn8 : Bool)
    (start : Nat) : List Bool :=
  bfsAux w h canStep conn8 (w * h + 1) [start]
    ((List.replicate (w * h) false).set start true)

/-- Per-channel colour closeness used by `_highlight_region`
(src/main.py:727-739): each of b, g, r differs by at most `tol`. -/
def closeBGR (tol : Nat) (p q : RGBA) : Bool :=
  decide (max p.b q.b - min p.b q.b ≤ tol) &&
  decide (max p.g q.g - min p.g q.g ≤ tol) &&
  decide (max p.r q.r - min p.r q.r ≤ tol)

/-- Exact BGR equality (alpha dropped by `cv2.COLOR_RGBA2BGR`), the step
condition of `cv2.floodFill` with default zero lo/up diffs in `_fill_area`. -/
def bgrEqPix (p q : RGBA) : Bool :=
  decide (p.b = q.b) && decide (p.g = q.g) && decide (p.r = q.r)

/-! ### Qt mouse-event flow for the brush and fill tools (src/main.py) -/

/-- `mousePressEvent` in `MODE_BRUSH` (src/main.py:147-152): record
`_last_pos` and apply the brush at the press position. -/
def mousePressBrush (pos : Int × Int) (s : EditorState) : EditorState :=
  applyBrush pos { s with lastPos := some pos }

/-- `mouseMoveEvent` with the left button held in `MODE_BRUSH`
(src/main.py:184-217): the handler first sets `_last_pos = pos`
unconditionally (line 185), then draws a line from `_last_pos` to `pos`
(degenerate, since `_last_pos` was just overwritten) and stores `pos` again. -/
def mouseMoveBrushDown (pos : Int × Int) (s : EditorState) : EditorState :=
  let s1 := { s with lastPos := some pos }
  match s1.lastPos with
  | some lp => { drawLine lp pos s1 with lastPos := some pos }
  | none => s1

/-- `mouseReleaseEvent` in `MODE_BRUSH` (src/main.py:282-286): only clears
`_last_pos`; no further history commit happens at gesture end. -/
def mouseReleaseBrush (s : EditorState) : EditorState :=
  { s with lastPos := none }

/-- One continuous brush gesture: press, a list of intermediate move events,
release. -/
def brushGesture (p : Int × Int) (moves : List (Int × Int))
    (s : EditorState) : EditorState :=
  mouseReleaseBrush (moves.foldl (fun st q => mouseMoveBrushDown q st) (mousePressBrush p s))

/-- `EditableLabel._fill_area` (src/main.py:532-587), triggered by a press in
`MODE_FILL`: flood fill the working pixmap from the click with the fill colour
(red), comparing exact BGR values (default zero tolerances).  The result of
`cv2.cvtColor(..., COLOR_BGR2RGBA)` is fully opaque.  The working pixmap is
replaced and the display updated, but no history entry is committed. -/
def fillArea (pos : Int × Int) (s : EditorState) : EditorState :=
  let p := pos.2.toNat * s.w + pos.1.toNat
  let target := pixAt s.working p
  let fillC : RGBA := ⟨255, 0, 0, 255⟩
  if target = fillC then s
  else
    let reg := floodFillRegion s.w s.h
      (fun a b => bgrEqPix (pixAt s.working a) (pixAt s.working b)) false p
    { s with working :=
        (List.range s.working.length).map (fun i =>
          if reg.getD i false then fillC
          else { pixAt s.working i with a := 255 }) }

/-- A loaded 2×2 editing session used for concrete evaluations:
`setPixmap` stores the pixmap, fills the mask with 255, clears the history and
commits the initial snapshot (src/main.py:60-95); the brush size slider is at
1. -/
def demoPixmap : Image :=
  [⟨10, 10, 10, 255⟩, ⟨20, 20, 20, 255⟩, ⟨30, 30, 30, 255⟩, ⟨40, 40, 40, 255⟩]

/-- The demo state: `setPixmap demoPixmap` on a fresh label, then
`set_brush_size 1`. -/
def demoState : EditorState :=
  { addToHistory
      { pixmap := demoPixmap, working := demoPixmap,
        mask := List.replicate 4 255, w := 2, h := 2, brushSize := 20,
        history := [], historyIndex := -1, maxHistory := 20, lastPos := none }
    with brushSize := 1 }

/-! ### Region highlight (`EditableLabel._highlight_region`, src/main.py) -/

/-- An integer rectangle (`QRect(x, y, width, height)`). -/
structure QRectI where
  x : Int
  y : Int
  rw : Int
  rh : Int
deriving DecidableEq, Repr

/-- The caller-visible outcome of one `_highlight_region` call: the flood-fill
mask stored in `_current_mask` (absent when no fill ran), the rectangle stored
in `_highlight_rect`, and whether the `hover_region_detected` signal was
emitted (fall-through path only). -/
structure HighlightOutcome where
  currentMask : Option (List Bool)
  highlightRect : Option QRectI
  signalEmitted : Bool
deriving DecidableEq, Repr

/-- Cells of a region buffer as `(x, y)` coordinates. -/
def regionCells (w : Nat) (reg : List Bool) : List (Nat × Nat) :=
  (List.range reg.length).filterMap (fun p =>
    if reg.getD p false then some (p % w, p / w) else none)

/-- `cv2.boundingRect` of the filled region: the tight axis-aligned box of its
cells, `none` when the region is empty (no contours found). -/
def bboxOf (w : Nat) (reg : List Bool) : Option QRectI :=
  match regionCells w reg with
  | [] => none
  | c :: cs =>
    let x0 := cs.foldl (fun m q => min m q.1) c.1
    let y0 := cs.foldl (fun m q => min m q.2) c.2
    let x1 := cs.foldl (fun m q => max m q.1) c.1
    let y1 := cs.foldl (fun m q => max m q.2) c.2
    some ⟨(x0 : Int), (y0 : Int), (x1 : Int) - x0 + 1, (y1 : Int) - y0 + 1⟩

/-- `EditableLabel._highlight_region` (src/main.py:700-777) on an image given
as a `w × h` pixel buffer.  Only a seed with `0 ≤ y < height` and
`0 ≤ x < width` triggers `cv2.floodFill` (tolerance 10 per channel,
4-connected); the filled region is stored in `_current_mask` and, when its
contours are non-empty, `_highlight_rect` is its bounding rectangle and the
call returns after showing the preview.  On every other path — including an
out-of-bounds seed — the code falls through to the fallback: `_highlight_rect`
is set to the 60×60 rectangle centred on the cursor and
`hover_region_detected` is emitted. -/
def highlightRegion (w h : Nat) (pix : Nat → RGBA) (px py : Int) : HighlightOutcome :=
  if 0 ≤ py ∧ py < (h : Int) ∧ 0 ≤ px ∧ px < (w : Int) then
    let reg := floodFillRegion w h (fun a b => closeBGR 10 (pix a) (pix b)) false
      (py.toNat * w + px.toNat)
    match bboxOf w reg with
    | some r => { currentMask := some reg, highlightRect := some r, signalEmitted := false }
    | none =>
      { currentMask := some reg, highlightRect := some ⟨px - 30, py - 30, 60, 60⟩,
        signalEmitted := true }
  else
    { currentMask := none, highlightRect := some ⟨px - 30, py - 30, 60, 60⟩,
      signalEmitted := true }

/-! ### Segmentation pipeline (`ImageProcessor.remove_background`,
src/main_tk.py:19-47) -/

/-- A raw decoded raster as handed to the pipeline: `w × h` pixels with
`channels` byte channels each (`data x y c`).  Channel order is BGR for the
first three channels, as produced by the caller's `cv2.cvtColor(...,
COLOR_RGB2BGR)`. -/
structure RawImage where
  w : Nat
  h : Nat
  channels : Nat
  data : Nat → Nat → Nat → Nat

/-- A single-channel byte raster. -/
structure GrayImage where
  w : Nat
  h : Nat
  pix : Nat → Nat → Nat

/-- One BGR pixel. -/
structure BGR where
  b : Nat
  g : Nat
  r : Nat
deriving DecidableEq, Repr

/-- `cv2.cvtColor(..., COLOR_BGR2GRAY)` on bytes: OpenCV's fixed-point
weights R 4899, G 9617, B 1868 at shift 14 with rounding. -/
def grayOfBGR (p : BGR) : Nat :=
  (4899 * p.r + 9617 * p.g + 1868 * p.b + 8192) / 16384

/-- `cv2.cvtColor` raises `cv2.error` on an empty source or an unsupported
channel count; otherwise produces the weighted grayscale raster. -/
def cvtColorBGR2GRAY (img : RawImage) : Except String GrayImage :=
  if img.w = 0 ∨ img.h = 0 ∨ (img.channels ≠ 3 ∧ img.channels ≠ 4) then
    Except.error "cv2.error: cvtColor: invalid input"
  else
    Except.ok
      { w := img.w, h := img.h,
        pix := fun x y => grayOfBGR ⟨img.data x y 0, img.data x y 1, img.data x y 2⟩ }

/-- Clamp an integer coordinate into `[0, n)` (OpenCV `BORDER_REPLICATE`,
the border mode of `cv2.medianBlur`). -/
def clampCoord (n : Nat) (i : Int) : Nat := min (max i 0).toNat (n - 1)

/-- The 5×5 replicate-border neighbourhood of `(x, y)`. -/
def neighborhood5 (g : GrayImage) (x y : Nat) : List Nat :=
  (List.range 5).flatMap (fun dy => (List.range 5).map (fun dx =>
    g.pix (clampCoord g.w ((x : Int) + (dx : Int) - 2))
          (clampCoord g.h ((y : Int) + (dy : Int) - 2))))

/-- `cv2.medianBlur(gray, 5)`: each pixel becomes the median (13th smallest)
of its 5×5 replicate-border neighbourhood. -/
def medianBlur5 (g : GrayImage) : GrayImage :=
  { g with pix := fun x y => ((neighborhood5 g x y).insertionSort (· ≤ ·)).getD 12 0 }

/-- `cv2.threshold(src, 240, 255, cv2.THRESH_BINARY)` pixelwise:
255 exactly when the value exceeds 240, else 0. -/
def thresholdBin (thr maxval v : Nat) : Nat := if thr < v then maxval else 0

/-- The binary mask the pipeline thresholds out of the blurred grayscale
(src/main_tk.py:22-27); 255 marks a pixel the code treats as near-white
background.  No inversion follows: the contours are extracted from this mask
directly (line 30). -/
def bgMaskOf (img : Nat → Nat → BGR) (w h : Nat) : GrayImage :=
  let g : GrayImage := { w := w, h := h, pix := fun x y => grayOfBGR (img x y) }
  let blurred := medianBlur5 g
  { w := w, h := h, pix := fun x y => thresholdBin 240 255 (blurred.pix x y) }

/-- The claim's pixel classification, following the spec's words: a pixel is
background exactly when every one of its three colour channels lies in
`[lb, 255]` (default lower bound `lb = 220`). -/
def specNearWhiteBg (lb : Nat) (p : BGR) : Bool :=
  decide (lb ≤ p.b) && decide (p.b ≤ 255) &&
  decide (lb ≤ p.g) && decide (p.g ≤ 255) &&
  decide (lb ≤ p.r) && decide (p.r ≤ 255)

/-! ### Contour retention (src/main_tk.py:30-36) -/

/-- An external contour of the thresholded mask, abstracted to an identity and
its `cv2.contourArea`. -/
structure Contour where
  id : Nat
  area : Nat
deriving DecidableEq, Repr

/-- Python's `max(seq, key=f)`: the first element attaining the maximal key. -/
def pyMaxBy (f : Contour → Nat) : Contour → List Contour → Contour
  | c, [] => c
  | c, d :: t => if f c < f d then pyMaxBy f d t else pyMaxBy f c t

/-- The contours the source rasterises into the mask
(src/main_tk.py:32-36): nothing when there are no contours, otherwise exactly
the single largest one (`max(contours, key=cv2.contourArea)`). -/
def retainedContours : List Contour → List Contour
  | [] => []
  | c :: cs => [pyMaxBy Contour.area c cs]

/-- The retention rule as the spec words it: every contour whose area is at
least 5% of the maximal area. -/
def specRetainedContours (cs : List Contour) : List Contour :=
  match cs with
  | [] => []
  | c :: t => cs.filter (fun d => (pyMaxBy Contour.area c t).area ≤ 20 * d.area)

/-! ### The whole classic-CV pipeline with its exception boundary
(src/main_tk.py:19-47) and the Tk caller (src/main_tk.py:536-597) -/

/-- Count of set cells (pixel area of a component). -/
def regionSize (reg : List Bool) : Nat := (reg.filter id).length

/-- The 8-connected components of the thresholded mask, in scan order; models
`cv2.findContours(thresh, cv2.RETR_EXTERNAL, ...)` at the level the theorems
below need: one external contour per white component, the rasterised filled
contour being the component's cells. -/
def componentsOf (w h : Nat) (ok : Nat → Bool) : List (List Bool) :=
  ((List.range (w * h)).foldl
    (fun st p =>
      if ok p && !(st.1.getD p true) then
        let reg := floodFillRegion w h (fun _ q => ok q) true p
        (List.zipWith (fun a b => a || b) st.1 reg, st.2 ++ [reg])
      else st)
    (List.replicate (w * h) false, [])).2

/-- Python's `max(regions, key=regionSize)` over a nonempty list. -/
def pyMaxRegion : List Bool → List (List Bool) → List Bool
  | c, [] => c
  | c, d :: t => if regionSize c < regionSize d then pyMaxRegion d t else pyMaxRegion c t

/-- The body of `ImageProcessor.remove_background` (src/main_tk.py:19-44)
inside its `try`: grayscale, median blur, threshold at 240, find the external
contours of the thresholded mask, draw the largest filled into a fresh mask
(all-zero when no contours are found), and `cv2.bitwise_and` the image with
it.  Any `cv2.error` (invalid input to `cvtColor`) escapes as
`Except.error`. -/
def removeBackgroundBody (img : RawImage) : Except String RawImage := do
  let gray ← cvtColorBGR2GRAY img
  let blurred := medianBlur5 gray
  let thresh : Nat → Bool := fun p =>
    decide (thresholdBin 240 255 (blurred.pix (p % img.w) (p / img.w)) = 255)
  let comps := componentsOf img.w img.h thresh
  let mask : Nat → Nat :=
    match comps with
    | [] => fun _ => 0
    | c :: t => fun p => if (pyMaxRegion c t).getD p false then 255 else 0
  Except.ok
    { img with data := fun x y c =>
        if mask (y * img.w + x) = 255 then img.data x y c else 0 }

/-- `ImageProcessor.remove_background` (src/main_tk.py:19-47): the whole body
runs inside `try/except`; any processing exception is caught and `None` is
returned instead of a mask. -/
def removeBackgroundTk (img : RawImage) : Option RawImage :=
  (removeBackgroundBody img).toOption

/-- The caller-visible state of the Tk editor around a segmentation call. -/
structure TkAppState where
  originalImage : RawImage
  currentImage : Option RawImage

/-- `SpriteCraftEditor.remove_background` (src/main_tk.py:536-597): run the
processor; only when the result is not `None` are `original_image` and the
displayed image replaced, otherwise an error box is shown and the state is
left as it was. -/
def removeBackgroundUI (st : TkAppState) : TkAppState :=
  match removeBackgroundTk st.originalImage with
  | some r => { st with originalImage := r, currentImage := some r }
  | none => st

/-! ### Auxiliary definitions for the statements below -/

/-- A distinguishable one-pixel snapshot, used to track which committed states
remain reachable. -/
def snap (i : Nat) : Image := [⟨i, 0, 0, 255⟩]

/-- The basic well-formedness of a history state reachable after at least one
commit: the cursor is inside the retained window, the window respects the
bound, and the working pixmap equals the snapshot under the cursor. -/
def Good (s : EditorState) : Prop :=
  0 ≤ s.historyIndex ∧ s.historyIndex < (s.history.length : Int) ∧
  s.history.length ≤ s.maxHistory ∧
  s.history.getD s.historyIndex.toNat [] = s.working

/-- An empty raster: `cv2.cvtColor` raises on it, making the pipeline's
`except` branch reachable. -/
def raw0 : RawImage := { w := 0, h := 0, channels := 3, data := fun _ _ _ => 0 }

/-- The demo session with its first mask byte at 0 — the value the claim
assumes brush erasing leaves behind — used to exhibit that painting raises a
lowered mask byte back to 255. -/
def lowMaskState : EditorState := { demoState with mask := [0, 255, 255, 255] }

/-- States of an editing session with the source's default history bound. -/
def Reached (s : EditorState) : Prop := Good s ∧ s.maxHistory = 20

/-! ## Lemmas about the history state machine -/

theorem truncFuture_length_le (s : EditorState) :
    (truncFuture s).length ≤ s.history.length := by
  unfold truncFuture
  split
  · simp [List.length_take]
  · exact le_rfl

@[simp] theorem addToHistory_mask (s : EditorState) :
    (addToHistory s).mask = s.mask := by
  unfold addToHistory; split <;> rfl

@[simp] theorem addToHistory_pixmap (s : EditorState) :
    (addToHistory s).pixmap = s.pixmap := by
  unfold addToHistory; split <;> rfl

@[simp] theorem addToHistory_working (s : EditorState) :
    (addToHistory s).working = s.working := by
  unfold addToHistory; split <;> rfl

@[simp] theorem addToHistory_maxHistory (s : EditorState) :
    (addToHistory s).maxHistory = s.maxHistory := by
  unfold addToHistory; split <;> rfl

theorem addToHistory_cursor (s : EditorState) :
    (addToHistory s).historyIndex = ((addToHistory s).history.length : Int) - 1 := by
  unfold addToHistory
  split
  · simp only [List.length_drop, List.length_append, List.length_cons, List.length_nil]
    push_cast
    omega
  · simp

theorem addToHistory_len_le (s : EditorState) (hlen : s.history.length ≤ s.maxHistory) :
    (addToHistory s).history.length ≤ s.maxHistory := by
  have ht := truncFuture_length_le s
  unfold addToHistory
  split
  · simp only [List.length_drop, List.length_append, List.length_cons, List.length_nil]
    omega
  · next hle =>
    simp only [gt_iff_lt, not_lt] at hle
    simpa using hle

theorem addToHistory_cursor_nonneg (s : EditorState) (hmax : 1 ≤ s.maxHistory) :
    0 ≤ (addToHistory s).historyIndex := by
  unfold addToHistory
  split
  · next hgt =>
    simp only [gt_iff_lt, List.length_append, List.length_cons, List.length_nil] at hgt ⊢
    omega
  · simp only [List.length_append, List.length_cons, List.length_nil]
    omega

theorem getD_append_length (l : List Image) (wp : Image) :
    (l ++ [wp]).getD l.length [] = wp := by
  simp [List.getD_eq_getElem?_getD, List.getElem?_append_right (le_refl l.length)]

theorem addToHistory_synced (s : EditorState) (hmax : 1 ≤ s.maxHistory) :
    (addToHistory s).history.getD (addToHistory s).historyIndex.toNat [] = s.working := by
  unfold addToHistory
  split
  · next hgt =>
    simp only [gt_iff_lt, List.length_append, List.length_cons, List.length_nil] at hgt
    have ht : 1 ≤ (truncFuture s).length := by omega
    show ((truncFuture s ++ [s.working]).drop 1).getD
      ((((truncFuture s ++ [s.working]).length : Int) - 2).toNat) [] = s.working
    rw [List.drop_append_of_le_length ht]
    have hidx : ((((truncFuture s ++ [s.working]).length : Int) - 2).toNat)
        = ((truncFuture s).drop 1).length := by
      simp only [List.length_append, List.length_cons, List.length_nil, List.length_drop]
      omega
    rw [hidx, getD_append_length]
  · show (truncFuture s ++ [s.working]).getD
      ((((truncFuture s ++ [s.working]).length : Int) - 1).toNat) [] = s.working
    have hidx : ((((truncFuture s ++ [s.working]).length : Int) - 1).toNat)
        = (truncFuture s).length := by
      simp only [List.length_append, List.length_cons, List.length_nil]
      omega
    rw [hidx, getD_append_length]

theorem addToHistory_good (s : EditorState) (hmax : 1 ≤ s.maxHistory)
    (hlen : s.history.length ≤ s.maxHistory) : Good (addToHistory s) := by
  refine ⟨addToHistory_cursor_nonneg s hmax, ?_,
    (addToHistory_maxHistory s) ▸ addToHistory_len_le s hlen, ?_⟩
  · rw [addToHistory_cursor s]
    omega
  · rw [addToHistory_synced s hmax, addToHistory_working s]

theorem commit_good (p : Image) (s : EditorState) (hmax : 1 ≤ s.maxHistory)
    (hlen : s.history.length ≤ s.maxHistory) : Good (commit p s) ∧ (commit p s).working = p := by
  constructor
  · exact addToHistory_good { s with working := p } hmax hlen
  · rw [commit, addToHistory_working]

@[simp] theorem commit_maxHistory (p : Image) (s : EditorState) :
    (commit p s).maxHistory = s.maxHistory := by
  rw [commit, addToHistory_maxHistory]

theorem commit_reached (p : Image) (s : EditorState) (hmax : s.maxHistory = 20)
    (hlen : s.history.length ≤ s.maxHistory) : Reached (commit p s) := by
  exact ⟨(commit_good p s (by omega) hlen).1, by simp [hmax]⟩

theorem commitAll_reached (ps : List Image) (s : EditorState) (h : Reached s) :
    Reached (commitAll ps s) := by
  induction ps generalizing s with
  | nil => exact h
  | cons p t ih =>
    show Reached (commitAll t (commit p s))
    exact ih _ (commit_reached p s h.2 h.1.2.2.1)

theorem commitAll_fresh_reached (ps : List Image) (h : ps ≠ []) :
    Reached (commitAll ps freshState) := by
  match ps, h with
  | p :: t, _ =>
    show Reached (commitAll t (commit p freshState))
    exact commitAll_reached t _ (commit_reached p freshState rfl (by simp [freshState]))

theorem commitAll_fresh_len_le (ps : List Image) :
    (commitAll ps freshState).history.length ≤ 20 := by
  rcases ps with _ | ⟨p, t⟩
  · simp [commitAll, freshState]
  · have h := commitAll_fresh_reached (p :: t) (by simp)
    calc (commitAll (p :: t) freshState).history.length
        ≤ (commitAll (p :: t) freshState).maxHistory := h.1.2.2.1
      _ = 20 := h.2

@[simp] theorem restoreFromHistory_history (s : EditorState) :
    (restoreFromHistory s).history = s.history := by
  unfold restoreFromHistory; split <;> rfl

@[simp] theorem restoreFromHistory_historyIndex (s : EditorState) :
    (restoreFromHistory s).historyIndex = s.historyIndex := by
  unfold restoreFromHistory; split <;> rfl

@[simp] theorem restoreFromHistory_mask (s : EditorState) :
    (restoreFromHistory s).mask = s.mask := by
  unfold restoreFromHistory; split <;> rfl

@[simp] theorem restoreFromHistory_maxHistory (s : EditorState) :
    (restoreFromHistory s).maxHistory = s.maxHistory := by
  unfold restoreFromHistory; split <;> rfl

@[simp] theorem undo_history (s : EditorState) : (undo s).2.history = s.history := by
  unfold undo; split <;> simp

@[simp] theorem undo_mask (s : EditorState) : (undo s).2.mask = s.mask := by
  unfold undo; split <;> simp

@[simp] theorem undo_maxHistory (s : EditorState) : (undo s).2.maxHistory = s.maxHistory := by
  unfold undo; split <;> simp

@[simp] theorem redo_mask (s : EditorState) : (redo s).2.mask = s.mask := by
  unfold redo; split <;> simp

theorem getD_mem_of_lt (l : List Image) (n : Nat) (h : n < l.length) :
    l.getD n [] ∈ l := by
  rw [List.getD_eq_getElem l [] h]
  exact List.getElem_mem h

theorem restoreFromHistory_eq_of (s : EditorState)
    (h : 0 ≤ s.historyIndex ∧ s.historyIndex < (s.history.length : Int)) :
    restoreFromHistory s = { s with working := s.history.getD s.historyIndex.toNat [] } := by
  rw [restoreFromHistory, if_pos h]

theorem undo_eq_of_good (s : EditorState) (hg : Good s) (hpos : 0 < s.historyIndex) :
    undo s = (true,
      { s with
        historyIndex := s.historyIndex - 1,
        working := s.history.getD (s.historyIndex - 1).toNat [] }) := by
  obtain ⟨h0, h1, h2, h3⟩ := hg
  rw [undo, if_pos hpos, restoreFromHistory_eq_of]
  exact ⟨show (0 : Int) ≤ s.historyIndex - 1 by omega,
    show s.historyIndex - 1 < (s.history.length : Int) by omega⟩

theorem redo_eq_of (s : EditorState) (h0 : 0 ≤ s.historyIndex)
    (hlt : s.historyIndex < (s.history.length : Int) - 1) :
    redo s = (true,
      { s with
        historyIndex := s.historyIndex + 1,
        working := s.history.getD (s.historyIndex + 1).toNat [] }) := by
  rw [redo, if_pos hlt, restoreFromHistory_eq_of]
  exact ⟨show (0 : Int) ≤ s.historyIndex + 1 by omega,
    show s.historyIndex + 1 < (s.history.length : Int) by omega⟩

theorem undo_good (s : EditorState) (h : Good s) : Good (undo s).2 := by
  by_cases hpos : 0 < s.historyIndex
  · obtain ⟨h0, h1, h2, h3⟩ := h
    rw [undo_eq_of_good s ⟨h0, h1, h2, h3⟩ hpos]
    refine ⟨?_, ?_, ?_, ?_⟩
    · show (0 : Int) ≤ s.historyIndex - 1
      omega
    · show s.historyIndex - 1 < (s.history.length : Int)
      omega
    · show s.history.length ≤ s.maxHistory
      exact h2
    · rfl
  · rw [undo, if_neg hpos]
    exact h

theorem redo_good (s : EditorState) (h : Good s) : Good (redo s).2 := by
  by_cases hlt : s.historyIndex < (s.history.length : Int) - 1
  · obtain ⟨h0, h1, h2, h3⟩ := h
    rw [redo_eq_of s h0 hlt]
    refine ⟨?_, ?_, ?_, ?_⟩
    · show (0 : Int) ≤ s.historyIndex + 1
      omega
    · show s.historyIndex + 1 < (s.history.length : Int)
      omega
    · show s.history.length ≤ s.maxHistory
      exact h2
    · rfl
  · rw [redo, if_neg hlt]
    exact h

theorem undoN_good (k : Nat) (s : EditorState) (h : Good s) : Good (undoN k s) := by
  induction k generalizing s with
  | zero => exact h
  | succ n ih => exact ih _ (undo_good s h)

theorem restoreFromHistory_working_cases (s : EditorState) :
    (restoreFromHistory s).working = s.working ∨ (restoreFromHistory s).working ∈ s.history := by
  rw [restoreFromHistory]
  split
  · next hin =>
    right
    show s.history.getD s.historyIndex.toNat [] ∈ s.history
    apply getD_mem_of_lt
    have h1 : 0 ≤ s.historyIndex := hin.1
    have h2 : s.historyIndex < (s.history.length : Int) := hin.2
    omega
  · left; rfl

theorem undo_working_cases (s : EditorState) :
    (undo s).2.working = s.working ∨ (undo s).2.working ∈ s.history := by
  rw [undo]
  split
  · have h := restoreFromHistory_working_cases
      { s with historyIndex := s.historyIndex - 1 }
    simpa using h
  · left; rfl

theorem undoN_working_cases (k : Nat) (s : EditorState) :
    (undoN k s).working = s.working ∨ (undoN k s).working ∈ s.history := by
  induction k generalizing s with
  | zero => left; rfl
  | succ n ih =>
    have h1 := ih (undo s).2
    have h2 := undo_working_cases s
    rw [undo_history s] at h1
    rcases h1 with h1 | h1
    · rw [show undoN (n + 1) s = undoN n (undo s).2 from rfl, h1]
      exact h2
    · right; exact (show undoN (n + 1) s = undoN n (undo s).2 from rfl) ▸ h1

theorem undo_redo_of_good (s : EditorState) (hg : Good s)
    (h : (undo s).1 = true) : (redo (undo s).2).1 = true ∧ (redo (undo s).2).2 = s := by
  obtain ⟨h0, h1, h2, h3⟩ := hg
  have hpos : 0 < s.historyIndex := by
    by_contra hle
    rw [undo, if_neg hle] at h
    exact Bool.false_ne_true h
  rw [undo_eq_of_good s ⟨h0, h1, h2, h3⟩ hpos]
  show (redo
    { s with
      historyIndex := s.historyIndex - 1,
      working := s.history.getD (s.historyIndex - 1).toNat [] }).1 = true ∧ _
  rw [redo_eq_of _ (show (0 : Int) ≤ s.historyIndex - 1 by omega)
    (show s.historyIndex - 1 < ((s.history.length : Int)) - 1 by omega)]
  refine ⟨rfl, ?_⟩
  show ({ s with
    historyIndex := s.historyIndex - 1 + 1,
    working := s.history.getD (s.historyIndex - 1 + 1).toNat [] } : EditorState) = s
  have hidx : s.historyIndex - 1 + 1 = s.historyIndex := by omega
  rw [hidx, h3]

theorem mem_addToHistory_history (s : EditorState) (q : Image)
    (hq : q ∈ (addToHistory s).history) :
    q ∈ s.history.take (s.historyIndex + 1).toNat ∨ q = s.working := by
  have hq2 : q ∈ truncFuture s ++ [s.working] := by
    revert hq
    unfold addToHistory
    split
    · exact fun hq => List.mem_of_mem_drop hq
    · exact fun hq => hq
  rcases List.mem_append.mp hq2 with h | h
  · left
    revert h
    unfold truncFuture
    split
    · exact id
    · next hge =>
      intro h
      rw [List.take_of_length_le ?_]
      · exact h
      · simp only [not_lt] at hge
        omega
  · right
    simpa using h

/-- Claim C3: after a commit — in particular after undoing once and then
committing a new edit — the cursor sits at the end of the history, so `redo`
returns the no-op result (`False`) and leaves the state unchanged; moreover
every snapshot retained by the commit comes from the history at or before the
pre-commit cursor or is the newly appended snapshot, so the truncated redo
branch is unreachable. -/
theorem claim_C3_redo_branch_pruned (s : EditorState) (p : Image) :
    (redo (commit p s)).1 = false
    ∧ (redo (commit p s)).2 = commit p s
    ∧ ∀ q ∈ (commit p s).history,
        q ∈ s.history.take (s.historyIndex + 1).toNat ∨ q = p := by
  have hc := addToHistory_cursor { s with working := p }
  have hred : ¬ ((commit p s).historyIndex
      < ((commit p s).history.length : Int) - 1) := by
    rw [commit]
    omega
  refine ⟨?_, ?_, ?_⟩
  · rw [redo, if_neg hred]
  · rw [redo, if_neg hred]
  · intro q hq
    have h := mem_addToHistory_history { s with working := p } q hq
    simpa using h

/-- Claim C1: the committed history never exceeds the depth bound
`N_max = 20`: for every sequence of commits from a fresh session the history
length stays at most 20 and (once anything is committed) the cursor satisfies
`0 ≤ index < length`; when appending would exceed the bound the oldest
snapshot is evicted and the cursor decremented, so after `N_max + 5 = 25`
commits the earliest 5 snapshots are unreachable by any number of undo
calls. -/
theorem claim_C1_history_bound (ps : List Image) (i : Nat) (hi : i < 5) :
    (commitAll ps freshState).history.length ≤ 20
    ∧ (ps ≠ [] →
        0 ≤ (commitAll ps freshState).historyIndex ∧
        (commitAll ps freshState).historyIndex
          < ((commitAll ps freshState).history.length : Int))
    ∧ ∀ k : Nat,
        (undoN k (commitAll ((List.range 25).map snap) freshState)).working ≠ snap i := by
  refine ⟨commitAll_fresh_len_le ps, ?_, ?_⟩
  · intro hps
    have h := commitAll_fresh_reached ps hps
    exact ⟨h.1.1, h.1.2.1⟩
  · intro k
    have hcases := undoN_working_cases k (commitAll ((List.range 25).map snap) freshState)
    have hconc : ∀ j, j < 5 →
        snap j ≠ (commitAll ((List.range 25).map snap) freshState).working ∧
        snap j ∉ (commitAll ((List.range 25).map snap) freshState).history := by decide
    rcases hcases with h | h
    · rw [h]
      exact fun he => (hconc i hi).1 he.symm
    · intro he
      exact (hconc i hi).2 (he ▸ h)

/-- Witness for C1 at concrete inputs. -/
theorem claim_C1_history_bound_witness :
    ([snap 0] ≠ ([] : List Image)) ∧ (0 : Nat) < 5
    ∧ (undoN 3 (commitAll ((List.range 25).map snap) freshState)).working ≠ snap 0
    ∧ 0 ≤ (commitAll [snap 0] freshState).historyIndex :=
  ⟨by decide, by decide, (claim_C1_history_bound [snap 0] 0 (by decide)).2.2 3,
    ((claim_C1_history_bound [snap 0] 0 (by decide)).2.1 (by decide)).1⟩

/-- Claim C2: in any state reached from a fresh session by a sequence of
commits (and possibly some undos), if `undo()` succeeds then an immediate
`redo()` succeeds and restores the entire pre-undo editor state — the working
pixmap byte for byte and the cursor at its pre-undo position. -/
theorem claim_C2_undo_redo_inverse (ps : List Image) (k : Nat) (hps : ps ≠ [])
    (hsucc : (undo (undoN k (commitAll ps freshState))).1 = true) :
    (redo (undo (undoN k (commitAll ps freshState))).2).1 = true
    ∧ (redo (undo (undoN k (commitAll ps freshState))).2).2
        = undoN k (commitAll ps freshState) := by
  have hg : Good (undoN k (commitAll ps freshState)) :=
    undoN_good k _ (commitAll_fresh_reached ps hps).1
  exact undo_redo_of_good _ hg hsucc

/-- Witness for C2 at concrete inputs. -/
theorem claim_C2_undo_redo_inverse_witness :
    ([snap 1, snap 2] ≠ ([] : List Image))
    ∧ (undo (undoN 0 (commitAll [snap 1, snap 2] freshState))).1 = true
    ∧ (redo (undo (undoN 0 (commitAll [snap 1, snap 2] freshState))).2).2
        = undoN 0 (commitAll [snap 1, snap 2] freshState) :=
  ⟨by decide, by decide,
    (claim_C2_undo_redo_inverse [snap 1, snap 2] 0 (by decide) (by decide)).2⟩

/-! ## Compositing and gesture lemmas -/

theorem updateWorkingPixmap_mask (s : EditorState) :
    (updateWorkingPixmap s).mask = s.mask := by
  rw [updateWorkingPixmap, addToHistory_mask]

theorem updateWorkingPixmap_pixmap (s : EditorState) :
    (updateWorkingPixmap s).pixmap = s.pixmap := by
  rw [updateWorkingPixmap, addToHistory_pixmap]

theorem updateWorkingPixmap_working (s : EditorState) :
    (updateWorkingPixmap s).working = compositeDestIn s.pixmap s.mask := by
  rw [updateWorkingPixmap, addToHistory_working]

/-- Claim C4, evaluated at the failing input: one continuous brush gesture —
press at (0, 0), two intermediate move events, release — commits three
history snapshots (one at the press and one per intermediate move, through
`_draw_line` → `_update_working_pixmap` → `_add_to_history`), not exactly one;
and a completed fill gesture (`_fill_area`) commits none.  Both contradict the
claimed exactly-one-snapshot-per-completed-gesture policy. -/
theorem claim_C4_per_move_commits :
    (brushGesture (0, 0) [(1, 0), (1, 1)] demoState).history.length
      = demoState.history.length + 3
    ∧ (fillArea (0, 0) demoState).history.length = demoState.history.length
    ∧ demoState.history.length = 1 := by decide

/-- Claim C7 counterexample: on a concrete loaded session, calling the
composite operation (`_update_working_pixmap`) twice with no intervening
mutation yields byte-identical working pixmaps, but the history does not stay
unchanged — each call appends a snapshot — refuting the claim that the
operation is a pure read leaving history and cursor untouched. -/
theorem claim_C7_composite_counterexample :
    (updateWorkingPixmap (updateWorkingPixmap demoState)).working
      = (updateWorkingPixmap demoState).working
    ∧ (updateWorkingPixmap demoState).history ≠ demoState.history
    ∧ (updateWorkingPixmap (updateWorkingPixmap demoState)).history
      ≠ demoState.history := by decide

/-- Claim C7 amended: compositing is deterministic — two calls with no
intervening mutation produce byte-identical working pixmaps, and neither the
source pixmap nor the mask is modified — but each call also appends one
snapshot to the history and moves the cursor to the new end (shown here for a
cursor at the end of a non-full history). -/
theorem claim_C7_composite_amended (s : EditorState)
    (hidx : s.historyIndex = (s.history.length : Int) - 1)
    (hlen : s.history.length < s.maxHistory) :
    (updateWorkingPixmap (updateWorkingPixmap s)).working
      = (updateWorkingPixmap s).working
    ∧ (updateWorkingPixmap s).working = compositeDestIn s.pixmap s.mask
    ∧ (updateWorkingPixmap s).mask = s.mask
    ∧ (updateWorkingPixmap s).pixmap = s.pixmap
    ∧ (updateWorkingPixmap s).history
        = s.history ++ [compositeDestIn s.pixmap s.mask]
    ∧ (updateWorkingPixmap s).historyIndex = (s.history.length : Int) := by
  have htr : truncFuture { s with working := compositeDestIn s.pixmap s.mask }
      = s.history := by
    unfold truncFuture
    rw [if_neg]
    show ¬ (s.historyIndex < (s.history.length : Int) - 1)
    omega
  have hcond : ¬ ((truncFuture { s with working := compositeDestIn s.pixmap s.mask }
      ++ [({ s with working := compositeDestIn s.pixmap s.mask } : EditorState).working]).length
      > ({ s with working := compositeDestIn s.pixmap s.mask } : EditorState).maxHistory) := by
    rw [htr]
    show ¬ ((s.history ++ [compositeDestIn s.pixmap s.mask]).length > s.maxHistory)
    simp only [List.length_append, List.length_cons, List.length_nil, gt_iff_lt, not_lt]
    omega
  refine ⟨?_, updateWorkingPixmap_working s, updateWorkingPixmap_mask s,
    updateWorkingPixmap_pixmap s, ?_, ?_⟩
  · rw [updateWorkingPixmap_working (updateWorkingPixmap s),
      updateWorkingPixmap_mask s, updateWorkingPixmap_pixmap s,
      updateWorkingPixmap_working s]
  · rw [updateWorkingPixmap]
    unfold addToHistory
    rw [if_neg hcond]
    show truncFuture { s with working := compositeDestIn s.pixmap s.mask }
      ++ [compositeDestIn s.pixmap s.mask] = s.history ++ [compositeDestIn s.pixmap s.mask]
    rw [htr]
  · rw [updateWorkingPixmap]
    unfold addToHistory
    rw [if_neg hcond]
    show ((truncFuture { s with working := compositeDestIn s.pixmap s.mask }
      ++ [compositeDestIn s.pixmap s.mask]).length : Int) - 1 = (s.history.length : Int)
    rw [htr]
    simp only [List.length_append, List.length_cons, List.length_nil]
    push_cast
    omega

/-- Witness for the amended C7 at a concrete state. -/
theorem claim_C7_composite_amended_witness :
    demoState.historyIndex = (demoState.history.length : Int) - 1
    ∧ demoState.history.length < demoState.maxHistory
    ∧ (updateWorkingPixmap demoState).history
        = demoState.history ++ [compositeDestIn demoState.pixmap demoState.mask] :=
  ⟨by decide, by decide,
    (claim_C7_composite_amended demoState (by decide) (by decide)).2.2.2.2.1⟩

/-! ## Pointwise mask lemmas -/

theorem getD_map_range (n : Nat) (f : Nat → Nat) (i : Nat) :
    ((List.range n).map f).getD i 0 = if i < n then f i else 0 := by
  by_cases h : i < n
  · rw [if_pos h, List.getD_eq_getElem _ _ (by simpa using h)]
    simp
  · rw [if_neg h]
    exact List.getD_eq_default _ _ (by simpa using le_of_not_lt h)

theorem paintOpaque_getD_ge (cov : Nat → Nat) (m : List Nat) (i : Nat)
    (hbyte : m.getD i 0 ≤ 255) :
    m.getD i 0 ≤ (paintOpaque cov m).getD i 0 := by
  rw [paintOpaque, getD_map_range]
  split
  · have hdist : m.getD i 0 * (255 - min (cov i) 255) + m.getD i 0 * min (cov i) 255
        = m.getD i 0 * 255 := by
      rw [← Nat.mul_add]
      congr 1
      have := min_le_right (cov i) 255
      omega
    have hmono : m.getD i 0 * min (cov i) 255 ≤ 255 * min (cov i) 255 :=
      Nat.mul_le_mul_right _ hbyte
    have hstep : min (cov i) 255 + m.getD i 0 * (255 - min (cov i) 255) / 255
        = (m.getD i 0 * (255 - min (cov i) 255) + min (cov i) 255 * 255) / 255 := by
      rw [Nat.add_mul_div_right _ _ (show 0 < 255 by omega), Nat.add_comm]
    rw [hstep, Nat.le_div_iff_mul_le (show 0 < 255 by omega)]
    calc m.getD i 0 * 255
        = m.getD i 0 * (255 - min (cov i) 255) + m.getD i 0 * min (cov i) 255 :=
          hdist.symm
      _ ≤ m.getD i 0 * (255 - min (cov i) 255) + 255 * min (cov i) 255 :=
          Nat.add_le_add_left hmono _
      _ = m.getD i 0 * (255 - min (cov i) 255) + min (cov i) 255 * 255 := by
          rw [Nat.mul_comm 255 (min (cov i) 255)]
  · next h =>
    rw [List.getD_eq_default _ _ (by simpa using le_of_not_lt h)]

theorem paintOpaque_getD_full (cov : Nat → Nat) (m : List Nat) (i : Nat)
    (hlt : i < m.length) (hcov : cov i = 255) :
    (paintOpaque cov m).getD i 0 = 255 := by
  rw [paintOpaque, getD_map_range, if_pos hlt, hcov]
  simp

theorem destInGray8_eq (src : Nat → Nat) (m : List Nat) : destInGray8 src m = m := by
  apply List.ext_getElem
  · simp [destInGray8]
  · intro i h1 h2
    simp only [destInGray8, List.getElem_map, List.getElem_range]
    rw [List.getD_eq_getElem _ _ h2]
    exact Nat.mul_div_cancel _ (by omega)

theorem applyBrush_mask (pos : Int × Int) (s : EditorState) :
    (applyBrush pos s).mask = paintOpaque (discCoverage s.w pos s.brushSize) s.mask := by
  rw [applyBrush, updateWorkingPixmap_mask]

theorem drawLine_mask (a b : Int × Int) (s : EditorState) :
    (drawLine a b s).mask = paintOpaque (capsuleCoverage s.w a b s.brushSize) s.mask := by
  rw [drawLine, updateWorkingPixmap_mask]

theorem removeRegionConfirmed_mask (rm : Nat → Nat) (s : EditorState) :
    (removeRegionConfirmed rm s).mask = destInGray8 rm s.mask := by
  rw [removeRegionConfirmed, updateWorkingPixmap_mask]

theorem removeRegionFallback_mask (pos : Int × Int) (s : EditorState) :
    (removeRegionFallback pos s).mask
      = paintOpaque (discCoverage s.w pos (2 * s.brushSize)) s.mask := by
  rw [removeRegionFallback, updateWorkingPixmap_mask]

/-- Claim C10 counterexample: painting into the `Format_Alpha8` mask stores
the brush colour's alpha, 255.  On the freshly loaded demo session a brush
press at a fully covered pixel leaves its mask byte at 255 — not 0 as the
claim states — and on a session whose first mask byte is 0 the same press
raises it back to 255, so the mask is not pointwise non-increasing. -/
theorem claim_C10_brush_counterexample :
    discCoverage demoState.w (0, 0) demoState.brushSize 0 = 255
    ∧ (applyBrush (0, 0) demoState).mask.getD 0 0 = 255
    ∧ (applyBrush (0, 0) demoState).mask.getD 0 0 ≠ 0
    ∧ lowMaskState.mask.getD 0 0 = 0
    ∧ (applyBrush (0, 0) lowMaskState).mask.getD 0 0 = 255 := by decide

/-- Claim C10 amended: within an editing session no mask-mutating operation
ever sets a covered mask pixel to 0 — painting the opaque brush into the
`Format_Alpha8` mask stores the colour's alpha, so the brush press, the drag
line and the fallback disc are pointwise non-decreasing on mask bytes (a
fully covered pixel becomes exactly 255), and the confirmed region-removal
draw (a Grayscale8 source under `CompositionMode_DestinationIn`) leaves every
mask byte unchanged — while undo, redo and `_restore_from_history` restore
only the displayed/working pixmap, leaving the mask field unchanged. -/
theorem claim_C10_mask_never_lowered (s : EditorState) (pos a b : Int × Int)
    (rm : Nat → Nat) (i : Nat) (hbyte : s.mask.getD i 0 ≤ 255) :
    s.mask.getD i 0 ≤ (applyBrush pos s).mask.getD i 0
    ∧ s.mask.getD i 0 ≤ (drawLine a b s).mask.getD i 0
    ∧ (removeRegionConfirmed rm s).mask = s.mask
    ∧ s.mask.getD i 0 ≤ (removeRegionFallback pos s).mask.getD i 0
    ∧ (i < s.mask.length → discCoverage s.w pos s.brushSize i = 255 →
        (applyBrush pos s).mask.getD i 0 = 255)
    ∧ (restoreFromHistory s).mask = s.mask
    ∧ (undo s).2.mask = s.mask
    ∧ (redo s).2.mask = s.mask := by
  refine ⟨?_, ?_, ?_, ?_, ?_, restoreFromHistory_mask s, undo_mask s, redo_mask s⟩
  · rw [applyBrush_mask]
    exact paintOpaque_getD_ge _ _ _ hbyte
  · rw [drawLine_mask]
    exact paintOpaque_getD_ge _ _ _ hbyte
  · rw [removeRegionConfirmed_mask, destInGray8_eq]
  · rw [removeRegionFallback_mask]
    exact paintOpaque_getD_ge _ _ _ hbyte
  · intro h1 h2
    rw [applyBrush_mask]
    exact paintOpaque_getD_full _ _ _ h1 h2

/-- Witness for the amended C10: on the demo session a fully covered mask
byte stays at 255 and is not lowered. -/
theorem claim_C10_mask_never_lowered_witness :
    demoState.mask.getD 0 0 ≤ 255
    ∧ (0 < demoState.mask.length
        ∧ discCoverage demoState.w (0, 0) demoState.brushSize 0 = 255)
    ∧ (applyBrush (0, 0) demoState).mask.getD 0 0 = 255
    ∧ demoState.mask.getD 0 0 ≤ (applyBrush (0, 0) demoState).mask.getD 0 0 :=
  ⟨by decide, ⟨by decide, by decide⟩,
    (claim_C10_mask_never_lowered demoState (0, 0) (0, 0) (0, 0) (fun _ => 0) 0
      (by decide)).2.2.2.2.1 (by decide) (by decide),
    (claim_C10_mask_never_lowered demoState (0, 0) (0, 0) (0, 0) (fun _ => 0) 0
      (by decide)).1⟩

/-! ## Segmentation lemmas -/

theorem orderedInsert_replicate (n c : Nat) :
    (List.replicate n c).orderedInsert (· ≤ ·) c = c :: List.replicate n c := by
  cases n with
  | zero => rfl
  | succ k =>
    rw [List.replicate_succ]
    show List.orderedInsert (· ≤ ·) c (c :: List.replicate k c) = _
    simp [List.orderedInsert]

theorem insertionSort_replicate (n c : Nat) :
    (List.replicate n c).insertionSort (· ≤ ·) = List.replicate n c := by
  induction n with
  | zero => rfl
  | succ k ih =>
    rw [List.replicate_succ]
    show List.orderedInsert (· ≤ ·) c ((List.replicate k c).insertionSort (· ≤ ·))
      = c :: List.replicate k c
    rw [ih, orderedInsert_replicate]

theorem neighborhood5_const (w h c x y : Nat) :
    neighborhood5 { w := w, h := h, pix := fun _ _ => c } x y = List.replicate 25 c := rfl

theorem medianBlur5_const (w h x y c : Nat) :
    (medianBlur5 { w := w, h := h, pix := fun _ _ => c }).pix x y = c := by
  simp only [medianBlur5]
  rw [neighborhood5_const, insertionSort_replicate]
  rfl

/-- Claim C5 counterexample: on a uniform 5×5 image of the pixel
(b, g, r) = (230, 230, 230) — every channel inside the claimed background
interval [220, 255] — the claim's predicate classifies the pixel as
background, but the code's thresholded mask (grayscale 230, median 230, not
above the fixed threshold 240) does not, refuting the claimed per-channel
[220, 255] classification. -/
theorem claim_C5_nearwhite_counterexample :
    specNearWhiteBg 220 ⟨230, 230, 230⟩ = true
    ∧ (bgMaskOf (fun _ _ => ⟨230, 230, 230⟩) 5 5).pix 2 2 = 0 := by
  constructor
  · decide
  · decide

/-- Claim C5 amended: in the segmentation operation a pixel is classified as
near-white background exactly when its median-blurred grayscale value exceeds
the fixed threshold 240 (shown on uniform images, where the 5×5 median is the
pixel's own grayscale value) — not when every channel lies in [220, 255] —
and no inversion follows: contours are extracted from this background mask
directly. -/
theorem claim_C5_nearwhite_amended (p : BGR) :
    ((bgMaskOf (fun _ _ => p) 5 5).pix 2 2 = 255 ↔ 240 < grayOfBGR p)
    ∧ (bgMaskOf (fun _ _ => p) 5 5).pix 2 2 = thresholdBin 240 255 (grayOfBGR p) := by
  have key : (bgMaskOf (fun _ _ => p) 5 5).pix 2 2
      = thresholdBin 240 255 (grayOfBGR p) := by
    simp only [bgMaskOf]
    rw [medianBlur5_const]
  refine ⟨?_, key⟩
  rw [key]
  by_cases hc : 240 < grayOfBGR p <;> simp [thresholdBin, hc]

/-- Claim C6 counterexample: with two external contours of equal area 100 the
second one has area well above 5% of the maximum, yet the code does not retain
it — `remove_background` keeps only the single largest contour — refuting the
claim that every contour with area at least 5% of the maximum is kept. -/
theorem claim_C6_contour_counterexample :
    (pyMaxBy Contour.area ⟨0, 100⟩ [⟨1, 100⟩]).area ≤ 20 * (Contour.mk 1 100).area
    ∧ Contour.mk 1 100 ∉ retainedContours [⟨0, 100⟩, ⟨1, 100⟩]
    ∧ Contour.mk 1 100 ∈ specRetainedContours [⟨0, 100⟩, ⟨1, 100⟩] := by decide

theorem pyMaxBy_le (f : Contour → Nat) (c : Contour) (cs : List Contour) :
    ∀ d ∈ c :: cs, f d ≤ f (pyMaxBy f c cs) := by
  induction cs generalizing c with
  | nil =>
    intro d hd
    rw [List.mem_singleton.mp hd]
    exact le_rfl
  | cons e t ih =>
    intro d hd
    rw [pyMaxBy]
    rcases List.mem_cons.mp hd with rfl | hd2
    · split
      · next hlt => exact (le_of_lt hlt).trans (ih e e (List.mem_cons_self e t))
      · exact ih d d (List.mem_cons_self d t)
    · rcases List.mem_cons.mp hd2 with rfl | hd3
      · split
        · next hlt => exact ih d d (List.mem_cons_self d t)
        · next hge => exact (le_of_not_lt hge).trans (ih c c (List.mem_cons_self c t))
      · split
        · exact ih e d (List.mem_cons_of_mem e hd3)
        · exact ih c d (List.mem_cons_of_mem c hd3)

theorem pyMaxBy_mem (f : Contour → Nat) (c : Contour) (cs : List Contour) :
    pyMaxBy f c cs ∈ c :: cs := by
  induction cs generalizing c with
  | nil => exact List.mem_singleton.mpr rfl
  | cons e t ih =>
    rw [pyMaxBy]
    split
    · exact List.mem_cons_of_mem c (ih e)
    · rcases List.mem_cons.mp (ih c) with h | h
      · rw [h]
        exact List.mem_cons_self c (e :: t)
      · exact List.mem_cons_of_mem c (List.mem_cons_of_mem e h)

/-- Claim C6 amended: the segmentation retains exactly one contour — the
first contour attaining the maximal area — which dominates every contour in
area; on the 80×80-square-plus-2×2-speck input the square is kept and the
speck discarded, but a second blob with area ≥ 5% of the maximum is not kept
(see the counterexample) unless it is itself that largest contour. -/
theorem claim_C6_largest_only (c : Contour) (cs : List Contour) :
    retainedContours (c :: cs) = [pyMaxBy Contour.area c cs]
    ∧ pyMaxBy Contour.area c cs ∈ c :: cs
    ∧ (∀ d ∈ c :: cs, d.area ≤ (pyMaxBy Contour.area c cs).area)
    ∧ retainedContours [⟨0, 6400⟩, ⟨1, 4⟩] = [⟨0, 6400⟩] :=
  ⟨rfl, pyMaxBy_mem Contour.area c cs, pyMaxBy_le Contour.area c cs, by decide⟩

/-- Witness for the amended C6: the 2×2 speck's area is dominated by the
retained 80×80 contour. -/
theorem claim_C6_largest_only_witness :
    ((⟨1, 4⟩ : Contour) ∈ [Contour.mk 0 6400, Contour.mk 1 4])
    ∧ (Contour.mk 1 4).area ≤ (pyMaxBy Contour.area ⟨0, 6400⟩ [⟨1, 4⟩]).area :=
  ⟨by decide, (claim_C6_largest_only ⟨0, 6400⟩ [⟨1, 4⟩]).2.2.1 ⟨1, 4⟩ (by decide)⟩

/-- Claim C8: whenever the segmentation body raises an internal processing
exception, `remove_background` returns the distinguished failure result
`None` — never a partial or an all-background mask — no exception escapes the
operation boundary, and the caller's visible image state is left entirely
unchanged. -/
theorem claim_C8_failure_reported (img : RawImage) (e : String)
    (hfail : removeBackgroundBody img = Except.error e) (st : TkAppState)
    (hst : st.originalImage = img) :
    removeBackgroundTk img = none
    ∧ (∀ r : RawImage, removeBackgroundTk img ≠ some r)
    ∧ removeBackgroundUI st = st := by
  have h1 : removeBackgroundTk img = none := by
    rw [removeBackgroundTk, hfail]
    rfl
  refine ⟨h1, ?_, ?_⟩
  · intro r hr
    rw [h1] at hr
    exact Option.noConfusion hr
  · unfold removeBackgroundUI
    rw [hst, h1]

/-- Witness for C8: the empty raster makes `cv2.cvtColor` raise, and the
operation reports `None`. -/
theorem claim_C8_failure_reported_witness :
    removeBackgroundBody raw0 = Except.error "cv2.error: cvtColor: invalid input"
    ∧ removeBackgroundTk raw0 = none :=
  ⟨rfl, (claim_C8_failure_reported raw0 "cv2.error: cvtColor: invalid input" rfl
    { originalImage := raw0, currentImage := none } rfl).1⟩

/-- Claim C9 counterexample: on a 10×10 image, the out-of-bounds seed
(-50, -50) runs no flood fill and selects no pixels (and raises no error),
but `_highlight_region` still sets `_highlight_rect` to the fallback 60×60
rectangle centred on the cursor and emits the hover signal — refuting the
claim that an out-of-bounds seed yields no highlight rectangle. -/
theorem claim_C9_oob_counterexample :
    (highlightRegion 10 10 (fun _ => ⟨255, 255, 255, 255⟩) (-50) (-50)).currentMask = none
    ∧ (highlightRegion 10 10 (fun _ => ⟨255, 255, 255, 255⟩) (-50) (-50)).highlightRect
        = some ⟨-80, -80, 60, 60⟩
    ∧ (highlightRegion 10 10 (fun _ => ⟨255, 255, 255, 255⟩) (-50) (-50)).signalEmitted
        = true := by decide

/-- Claim C9 amended: a seed outside [0, W) × [0, H) triggers no flood fill,
selects no region and raises no error, and only in-bounds seeds run the flood
fill; however the operation still sets the fallback 60×60 highlight rectangle
centred on the cursor and emits the hover signal. -/
theorem claim_C9_oob_amended (w h : Nat) (pix : Nat → RGBA) (px py : Int)
    (hoob : ¬ (0 ≤ py ∧ py < (h : Int) ∧ 0 ≤ px ∧ px < (w : Int))) :
    (highlightRegion w h pix px py).currentMask = none
    ∧ (highlightRegion w h pix px py).highlightRect = some ⟨px - 30, py - 30, 60, 60⟩
    ∧ (highlightRegion w h pix px py).signalEmitted = true
    ∧ ∀ qx qy : Int, (0 ≤ qy ∧ qy < (h : Int) ∧ 0 ≤ qx ∧ qx < (w : Int)) →
        (highlightRegion w h pix qx qy).currentMask
          = some (floodFillRegion w h (fun a b => closeBGR 10 (pix a) (pix b)) false
              (qy.toNat * w + qx.toNat)) := by
  refine ⟨?_, ?_, ?_, ?_⟩
  · rw [highlightRegion, if_neg hoob]
  · rw [highlightRegion, if_neg hoob]
  · rw [highlightRegion, if_neg hoob]
  · intro qx qy hin
    simp only [highlightRegion]
    rw [if_pos hin]
    split <;> rfl

/-- Witness for the amended C9 at the concrete out-of-bounds seed. -/
theorem claim_C9_oob_amended_witness :
    ¬ ((0 : Int) ≤ (-50 : Int) ∧ (-50 : Int) < ((10 : Nat) : Int)
        ∧ (0 : Int) ≤ (-50 : Int) ∧ (-50 : Int) < ((10 : Nat) : Int))
    ∧ (highlightRegion 10 10 (fun _ => ⟨128, 128, 128, 255⟩) (-50) (-50)).currentMask
        = none :=
  ⟨by decide,
    (claim_C9_oob_amended 10 10 (fun _ => ⟨128, 128, 128, 255⟩) (-50) (-50) (by decide)).1⟩

end SpriteCraft
